import Mathlib

set_option maxRecDepth 8000

/-!
# Guardian — verification of the decision pipeline and audit chain

A shallow embedding of the Guardian gatekeeper (rezzedai/guardian) in Lean 4:
the shell preprocessor (`stripQuotedStrings`, `splitShellCommand`,
`extractSubcommands`), the blocklist matcher, the scope / allowlist / budget
gates, the pipeline `validate` / `validateAndAudit`, and the SHA-256-chained
audit writer with its verifier `verifyAuditChain`.

Conventions of the embedding:
* JavaScript strings are Lean `String`s (lists of characters); iteration with
  an index becomes structural recursion on the character list.
* Module-scoped mutable state (the per-process action counter, the audit
  last-hash / sequence) is threaded explicitly; effectful calls return the
  updated state.
* The file system is an oracle: the parsed cost file arrives as an
  `Option Rat` parameter, audit appends are collected in a list.
* Regular expressions are hand-compiled from the pattern strings of
  `src/patterns/*.ts` into an executable AST `Re` with JavaScript `test`
  semantics (unanchored search, `i` flag as ASCII case folding).
-/

namespace Guardian

/-! ## Shell preprocessor (src/blocklist.ts)

`stripQuotedStrings`, `splitShellCommand` and `extractSubcommands` are direct
translations of the three string scanners in `src/blocklist.ts`. -/

/-- JavaScript whitespace for `String.prototype.trim`: tab, LF, VT, FF, CR,
space, NBSP, and the main Unicode space separators. -/
def jsWhitespace (c : Char) : Bool :=
  c.toNat = 9 ∨ c.toNat = 10 ∨ c.toNat = 11 ∨ c.toNat = 12 ∨ c.toNat = 13 ∨
  c.toNat = 32 ∨ c.toNat = 160 ∨ c.toNat = 0x1680 ∨
  (0x2000 ≤ c.toNat ∧ c.toNat ≤ 0x200a) ∨ c.toNat = 0x2028 ∨ c.toNat = 0x2029 ∨
  c.toNat = 0x202f ∨ c.toNat = 0x205f ∨ c.toNat = 0x3000 ∨ c.toNat = 0xfeff

/-- JavaScript `String.prototype.trim`. -/
def jsTrim (s : String) : String :=
  ⟨(s.data.dropWhile jsWhitespace).reverse.dropWhile jsWhitespace |>.reverse⟩

/-- The scanner of `stripQuotedStrings` (src/blocklist.ts:132-161): drop
quoted content and the quote delimiters; inside double quotes a backslash
with a following character skips that character. -/
def stripGo (inS inD : Bool) : List Char → List Char
  | [] => []
  | c :: cs =>
    if c = '\\' && inD then
      match cs with
      | _ :: cs2 => stripGo inS inD cs2
      | [] => []
    else if c = '\'' && !inD then stripGo (!inS) inD cs
    else if c = '"' && !inS then stripGo inS (!inD) cs
    else if !inS && !inD then c :: stripGo inS inD cs
    else stripGo inS inD cs

/-- Translation of `stripQuotedStrings` (src/blocklist.ts:132-161). -/
def stripQuotedStrings (text : String) : String :=
  ⟨stripGo false false text.data⟩

/-- The scanner of `splitShellCommand` (src/blocklist.ts:62-97). State:
quote flags, subshell depth, current segment (reversed), finished segments
(reversed). Note that the source counts `$`-before-`(` *and* the `(` itself,
so `$(` raises the depth by two while `)` lowers it by one. -/
def splitGo (inS inD : Bool) (depth : Nat) (cur : List Char)
    (acc : List String) : List Char → List String
  | [] =>
    let t := jsTrim ⟨cur.reverse⟩
    if t ≠ "" then (t :: acc).reverse else acc.reverse
  | c :: cs =>
    if c = '\'' && !inD then splitGo (!inS) inD depth (c :: cur) acc cs
    else if c = '"' && !inS then splitGo inS (!inD) depth (c :: cur) acc cs
    else if inS || inD then splitGo inS inD depth (c :: cur) acc cs
    else if c = '(' || (c = '$' && cs.head? = some '(') then
      splitGo inS inD (depth + 1) (c :: cur) acc cs
    else if c = ')' then splitGo inS inD (depth - 1) (c :: cur) acc cs
    else if depth > 0 then splitGo inS inD depth (c :: cur) acc cs
    else if c = '&' && cs.head? = some '&' then
      match cs with
      | _ :: cs2 => splitGo inS inD depth [] (jsTrim ⟨cur.reverse⟩ :: acc) cs2
      | [] => acc.reverse
    else if c = '|' && cs.head? = some '|' then
      match cs with
      | _ :: cs2 => splitGo inS inD depth [] (jsTrim ⟨cur.reverse⟩ :: acc) cs2
      | [] => acc.reverse
    else if c = ';' then splitGo inS inD depth [] (jsTrim ⟨cur.reverse⟩ :: acc) cs
    else if c = '|' then splitGo inS inD depth [] (jsTrim ⟨cur.reverse⟩ :: acc) cs
    else splitGo inS inD depth (c :: cur) acc cs

/-- Translation of `splitShellCommand` (src/blocklist.ts:62-97): split on `&&`, `||`, `;`
and `|` outside quotes and at depth 0, then drop empty segments. -/
def splitShellCommand (command : String) : List String :=
  (splitGo false false 0 [] [] command.data).filter (fun s => s ≠ "")

/-- The `$(...)` scanner of `extractSubcommands` (src/blocklist.ts:100-129).
The source loop runs for `i < command.length - 1`, so the final character of
the command is never examined; `body` holds the characters of the currently
open region, reversed. -/
def extractDollarGo (depth : Nat) (body : List Char) : List Char → List String
  | c1 :: c2 :: cs =>
    if c1 = '$' && c2 = '(' then
      if depth = 0 then extractDollarGo 1 [] cs
      else extractDollarGo (depth + 1) ('(' :: '$' :: body) cs
    else if c1 = ')' && depth > 0 then
      if depth = 1 then (⟨body.reverse⟩ : String) :: extractDollarGo 0 [] (c2 :: cs)
      else extractDollarGo (depth - 1) (')' :: body) (c2 :: cs)
    else if depth > 0 then extractDollarGo depth (c1 :: body) (c2 :: cs)
    else extractDollarGo depth body (c2 :: cs)
  | _ => []

/-- The backtick character (written by code point to keep it out of names). -/
def btickChar : Char := Char.ofNat 96

/-- The backtick scanner of `extractSubcommands`: the regex matching one or
more non-backtick characters between two backticks, applied globally. A
backtick immediately after an opening backtick restarts the match at that
backtick (the body must be nonempty); an unclosed opener yields nothing. -/
def extractBackticksGo : Option (List Char) → List Char → List String
  | _, [] => []
  | none, c :: cs =>
    if c = btickChar then extractBackticksGo (some []) cs
    else extractBackticksGo none cs
  | some body, c :: cs =>
    if c = btickChar then
      if body.isEmpty then extractBackticksGo (some []) cs
      else (⟨body.reverse⟩ : String) :: extractBackticksGo none cs
    else extractBackticksGo (some (c :: body)) cs

/-- Translation of `extractSubcommands` (src/blocklist.ts:100-129): `$(...)` bodies first,
then backtick bodies. -/
def extractSubcommands (command : String) : List String :=
  extractDollarGo 0 [] command.data ++ extractBackticksGo none command.data

/-! ## Regular expressions

Guardian compiles its pattern strings with JavaScript `RegExp` and only ever
calls `test` (src/blocklist.ts:163-171), i.e. unanchored search. The embedding
compiles each pattern string by hand into the AST `Re` below and runs a
backtracking matcher with explicit fuel; `test` only asks whether *some* match
exists, so the backtracking order is irrelevant. The constructs appearing in
the bundled patterns are covered: literals, `.`, character classes with
ranges, `\s`, `\b`, `*`, `+`, `?`, `{n}`, `{n,}`, alternation, grouping,
negative lookahead `(?!...)`, the `$` anchor, and the `i` flag (ASCII case
folding). -/

/-- One item of a character class: a literal character or a range. -/
inductive ClsItem where
  | one (c : Char)
  | range (lo hi : Char)
deriving DecidableEq, Repr

/-- Regex AST. `wordB` is `\b`, `nla` is `(?!...)`, `eos` is `$` (end of
input; none of the bundled patterns use the `m` flag). -/
inductive Re where
  | eps
  | ch (c : Char)
  | cls (neg : Bool) (items : List ClsItem)
  | dot
  | seq (a b : Re)
  | alt (a b : Re)
  | star (a : Re)
  | wordB
  | nla (a : Re)
  | eos
deriving DecidableEq, Repr

/-- ASCII lowercasing, the case folding relevant to the bundled patterns. -/
def lowerAscii (c : Char) : Char :=
  if 'A' ≤ c ∧ c ≤ 'Z' then Char.ofNat (c.toNat + 32) else c

/-- ASCII uppercasing. -/
def upperAscii (c : Char) : Char :=
  if 'a' ≤ c ∧ c ≤ 'z' then Char.ofNat (c.toNat - 32) else c

/-- Character-literal comparison under an optional `i` flag. -/
def eqCi (ci : Bool) (pat c : Char) : Bool :=
  pat = c || (ci && lowerAscii pat = lowerAscii c)

def clsItemMatch (ci : Bool) (item : ClsItem) (c : Char) : Bool :=
  match item with
  | .one p => eqCi ci p c
  | .range lo hi =>
    (lo ≤ c ∧ c ≤ hi) ||
    (ci && ((lo ≤ lowerAscii c ∧ lowerAscii c ≤ hi) ||
            (lo ≤ upperAscii c ∧ upperAscii c ≤ hi)))

def clsMatch (ci : Bool) (neg : Bool) (items : List ClsItem) (c : Char) : Bool :=
  let hit := items.any (fun it => clsItemMatch ci it c)
  if neg then !hit else hit

/-- JavaScript word characters, for `\b`. -/
def isWordChar (c : Char) : Bool :=
  ('a' ≤ c ∧ c ≤ 'z') || ('A' ≤ c ∧ c ≤ 'Z') || ('0' ≤ c ∧ c ≤ '9') || c = '_'

def isWordOpt : Option Char → Bool
  | none => false
  | some c => isWordChar c

/-- Line terminators that `.` does not match. -/
def isLineTerm (c : Char) : Bool :=
  c.toNat = 10 || c.toNat = 13 || c.toNat = 0x2028 || c.toNat = 0x2029

/-- The backtracking matcher in continuation style. `prev` is the character
just before the current position (for `\b`); the continuation receives the
position after the sub-match. Fuel only bounds recursion depth; `reFuel`
below always suffices for the concrete calls made in this file. -/
def reMatch (fuel : Nat) (ci : Bool) (r : Re) (prev : Option Char)
    (s : List Char) (k : Option Char → List Char → Bool) : Bool :=
  match fuel with
  | 0 => false
  | fuel + 1 =>
    match r with
    | .eps => k prev s
    | .ch c =>
      match s with
      | [] => false
      | x :: xs => if eqCi ci c x then k (some x) xs else false
    | .cls neg items =>
      match s with
      | [] => false
      | x :: xs => if clsMatch ci neg items x then k (some x) xs else false
    | .dot =>
      match s with
      | [] => false
      | x :: xs => if isLineTerm x then false else k (some x) xs
    | .seq a b => reMatch fuel ci a prev s (fun p' s' => reMatch fuel ci b p' s' k)
    | .alt a b => reMatch fuel ci a prev s k || reMatch fuel ci b prev s k
    | .star a =>
      k prev s || reMatch fuel ci a prev s (fun p' s' => reMatch fuel ci (.star a) p' s' k)
    | .wordB => if isWordOpt prev ≠ isWordOpt s.head? then k prev s else false
    | .nla a => if reMatch fuel ci a prev s (fun _ _ => true) then false else k prev s
    | .eos =>
      match s with
      | [] => k prev s
      | _ :: _ => false

/-- Size of a regex AST, for the fuel bound. -/
def reSize : Re → Nat
  | .eps => 1
  | .ch _ => 1
  | .cls _ _ => 1
  | .dot => 1
  | .seq a b => reSize a + reSize b + 1
  | .alt a b => reSize a + reSize b + 1
  | .star a => reSize a + 2
  | .wordB => 1
  | .nla a => reSize a + 1
  | .eos => 1

/-- Try a match at the current position, then at every later start position. -/
def reSearch (fuel : Nat) (ci : Bool) (r : Re) : Option Char → List Char → Bool
  | prev, [] => reMatch fuel ci r prev [] (fun _ _ => true)
  | prev, x :: xs =>
    reMatch fuel ci r prev (x :: xs) (fun _ _ => true) || reSearch fuel ci r (some x) xs

/-- Fuel that dominates the recursion depth of `reMatch` on this input. -/
def reFuel (r : Re) (s : List Char) : Nat :=
  (s.length + 4) * (reSize r + 16) * 8

/-- JavaScript `RegExp.prototype.test`: unanchored search over the string. -/
def reTest (ci : Bool) (r : Re) (s : String) : Bool :=
  reSearch (reFuel r s.data) ci r none s.data

/-- Shorthand for `a+`. -/
def rePlus (r : Re) : Re := .seq r (.star r)

/-- Shorthand for `a?`. -/
def reOpt (r : Re) : Re := .alt r .eps

/-- Shorthand for `a{n}`. -/
def reRepN : Nat → Re → Re
  | 0, _ => .eps
  | n + 1, r => .seq r (reRepN n r)

/-- Shorthand for `a{n,}`. -/
def reRepGe (n : Nat) (r : Re) : Re := .seq (reRepN n r) (.star r)

/-- A literal string. -/
def reLit (s : String) : Re :=
  s.data.foldr (fun c acc => .seq (.ch c) acc) .eps

/-- Right-nested sequence. -/
def reSeqL (rs : List Re) : Re := rs.foldr .seq .eps

/-- Right-nested alternation (never called on `[]`). -/
def reAltL : List Re → Re
  | [] => .eps
  | [r] => r
  | r :: rs => .alt r (reAltL rs)

/-- The class items of JavaScript `\s`. -/
def wsItems : List ClsItem :=
  [.range (Char.ofNat 9) (Char.ofNat 13), .one ' ', .one (Char.ofNat 160),
   .one (Char.ofNat 0x1680), .range (Char.ofNat 0x2000) (Char.ofNat 0x200a),
   .one (Char.ofNat 0x2028), .one (Char.ofNat 0x2029), .one (Char.ofNat 0x202f),
   .one (Char.ofNat 0x205f), .one (Char.ofNat 0x3000), .one (Char.ofNat 0xfeff)]

/-- Class `\s`. -/
def reWs : Re := .cls false wsItems

/-- Class `[a-zA-Z]`. -/
def reAlpha : Re := .cls false [.range 'a' 'z', .range 'A' 'Z']

/-! ## Data model (src/types.ts) -/

inductive Severity where
  | critical | high | medium | low
deriving DecidableEq, Repr

inductive Source where
  | allowlist | scope | blocklist | budget
deriving DecidableEq, Repr

inductive FileOp where
  | read | write | delete | git_add
deriving DecidableEq, Repr

inductive Mode where
  | enforce | audit | off
deriving DecidableEq, Repr

inductive BreachAction where
  | kill | deny | warn
deriving DecidableEq, Repr

inductive Integrity where
  | sha256chain | noneI
deriving DecidableEq, Repr

inductive Rotation where
  | daily | noneR
deriving DecidableEq, Repr

structure ValidationResult where
  allowed : Bool
  reason : Option String
  severity : Option Severity
  pattern : Option String
  source : Option Source
deriving DecidableEq, Repr

/-- A compiled command / secret / network pattern (the `CompiledPattern` of
src/blocklist.ts). `pattern` is the regex source text as it appears in the
policy; `re` and `ci` are its hand compilation (`ci` true iff the `flags`
field contains `i`; network patterns are compiled without flags). -/
structure PatternSpec where
  pattern : String
  re : Re
  ci : Bool
  severity : Severity
  reason : String
deriving DecidableEq, Repr

structure FilePatternSpec where
  pattern : String
  re : Re
  operations : List FileOp
  severity : Severity
  reason : String
deriving DecidableEq, Repr

structure BlocklistConfig where
  commands : List PatternSpec
  file_patterns : List FilePatternSpec
  secret_patterns : List PatternSpec
  network : List PatternSpec
deriving DecidableEq, Repr

structure AllowlistConfig where
  commands : List String
  paths : List String
  domains : List String
deriving DecidableEq, Repr

structure ScopeConfig where
  allowed_paths : List String
  denied_paths : List String
  allow_outside_cwd : Bool
deriving DecidableEq, Repr

structure BudgetConfig where
  enabled : Bool
  max_actions_per_session : Int
  session_limit_usd : Option Rat
  cost_file : String
  action_on_breach : BreachAction
deriving DecidableEq, Repr

structure AuditConfig where
  enabled : Bool
  path : String
  include_tool_input : Bool
  include_tool_output : Bool
  integrity : Integrity
  max_file_size_mb : Nat
  rotation : Rotation
deriving DecidableEq, Repr

structure KillSwitchConfig where
  enabled : Bool
  on_blocklist_critical : Bool
  on_budget_breach : Bool
  on_integrity_violation : Bool
  exit_code : Nat
deriving DecidableEq, Repr

structure Policy where
  version : Nat
  mode : Mode
  blocklist : BlocklistConfig
  allowlist : AllowlistConfig
  scope : ScopeConfig
  budget : BudgetConfig
  audit : AuditConfig
  kill_switch : KillSwitchConfig
deriving DecidableEq, Repr

/-- A hook request. Tool inputs are modeled as association lists of string
parameters in insertion order; every tool parameter exercised by the spec
scenarios is a string. -/
structure HookInput where
  tool_name : String
  tool_input : List (String × String)
  session_id : Option String
  cwd : Option String
deriving DecidableEq, Repr

/-- Model of `(toolInput.k as string) ?? ""`: the parameter value, or `""` when the
key is absent. -/
def getStr (ti : List (String × String)) (k : String) : String :=
  match ti.find? (fun p => p.1 = k) with
  | some p => p.2
  | none => ""

/-- Presence-aware lookup, for `content ?? new_string ?? ""`. -/
def getStrOpt (ti : List (String × String)) (k : String) : Option String :=
  (ti.find? (fun p => p.1 = k)).map (fun p => p.2)

structure BudgetState where
  action_count : Nat
  session_cost_usd : Option Rat
  exceeded : Bool
  breach_reason : Option String
deriving DecidableEq, Repr

/-! ## Default pattern bundle (src/patterns/destructive.ts, privilege.ts,
exfiltration.ts) — each regex text hand-compiled into `Re`. -/

def underDashCls : Re := .cls false [.one '_', .one '-']

/-- Pattern `rm\s+(-[a-zA-Z]*f[a-zA-Z]*|--force)` -/
def patRmForce : PatternSpec :=
  { pattern := "rm\\s+(-[a-zA-Z]*f[a-zA-Z]*|--force)"
    re := reSeqL [reLit "rm", rePlus reWs,
      .alt (reSeqL [.ch '-', .star reAlpha, .ch 'f', .star reAlpha]) (reLit "--force")]
    ci := false, severity := .critical, reason := "Forced file deletion" }

/-- Pattern `rm\s+(-[a-zA-Z]*r[a-zA-Z]*|--recursive)\s+/(?!tmp)` -/
def patRmRecursive : PatternSpec :=
  { pattern := "rm\\s+(-[a-zA-Z]*r[a-zA-Z]*|--recursive)\\s+/(?!tmp)"
    re := reSeqL [reLit "rm", rePlus reWs,
      .alt (reSeqL [.ch '-', .star reAlpha, .ch 'r', .star reAlpha]) (reLit "--recursive"),
      rePlus reWs, .ch '/', .nla (reLit "tmp")]
    ci := false, severity := .critical, reason := "Recursive deletion outside /tmp" }

/-- Pattern `git\s+push\s+.*--force` -/
def patGitPushForce : PatternSpec :=
  { pattern := "git\\s+push\\s+.*--force"
    re := reSeqL [reLit "git", rePlus reWs, reLit "push", rePlus reWs, .star .dot,
      reLit "--force"]
    ci := false, severity := .high, reason := "Force push can destroy remote history" }

/-- Pattern `git\s+reset\s+--hard` -/
def patGitResetHard : PatternSpec :=
  { pattern := "git\\s+reset\\s+--hard"
    re := reSeqL [reLit "git", rePlus reWs, reLit "reset", rePlus reWs, reLit "--hard"]
    ci := false, severity := .high, reason := "Hard reset destroys uncommitted work" }

/-- Pattern `git\s+clean\s+.*-f` -/
def patGitClean : PatternSpec :=
  { pattern := "git\\s+clean\\s+.*-f"
    re := reSeqL [reLit "git", rePlus reWs, reLit "clean", rePlus reWs, .star .dot,
      reLit "-f"]
    ci := false, severity := .high, reason := "Git clean -f deletes untracked files permanently" }

/-- Pattern `DROP\s+(TABLE|DATABASE|INDEX)` with flag `i` -/
def patDrop : PatternSpec :=
  { pattern := "DROP\\s+(TABLE|DATABASE|INDEX)"
    re := reSeqL [reLit "DROP", rePlus reWs,
      reAltL [reLit "TABLE", reLit "DATABASE", reLit "INDEX"]]
    ci := true, severity := .critical, reason := "SQL destructive operation" }

/-- Pattern `TRUNCATE\s+TABLE` with flag `i` -/
def patTruncate : PatternSpec :=
  { pattern := "TRUNCATE\\s+TABLE"
    re := reSeqL [reLit "TRUNCATE", rePlus reWs, reLit "TABLE"]
    ci := true, severity := .critical, reason := "SQL destructive operation" }

/-- Pattern `\bmkfs\b` -/
def patMkfs : PatternSpec :=
  { pattern := "\\bmkfs\\b"
    re := reSeqL [.wordB, reLit "mkfs", .wordB]
    ci := false, severity := .critical, reason := "Disk formatting" }

/-- Pattern `\bdd\s+if=` -/
def patDd : PatternSpec :=
  { pattern := "\\bdd\\s+if="
    re := reSeqL [.wordB, reLit "dd", rePlus reWs, reLit "if="]
    ci := false, severity := .critical, reason := "Raw disk write" }

/-- Pattern `kill\s+-9` -/
def patKill9 : PatternSpec :=
  { pattern := "kill\\s+-9"
    re := reSeqL [reLit "kill", rePlus reWs, reLit "-9"]
    ci := false, severity := .high, reason := "Force kill process" }

/-- Pattern `pkill\s+-9` -/
def patPkill9 : PatternSpec :=
  { pattern := "pkill\\s+-9"
    re := reSeqL [reLit "pkill", rePlus reWs, reLit "-9"]
    ci := false, severity := .high, reason := "Force kill processes by name" }

/-- Pattern `\bsudo\b` -/
def patSudo : PatternSpec :=
  { pattern := "\\bsudo\\b"
    re := reSeqL [.wordB, reLit "sudo", .wordB]
    ci := false, severity := .high, reason := "Privilege escalation via sudo" }

/-- Pattern `chmod\s+777` -/
def patChmod777 : PatternSpec :=
  { pattern := "chmod\\s+777"
    re := reSeqL [reLit "chmod", rePlus reWs, reLit "777"]
    ci := false, severity := .high, reason := "World-writable permissions" }

/-- Pattern `\bchown\s+root\b` -/
def patChownRoot : PatternSpec :=
  { pattern := "\\bchown\\s+root\\b"
    re := reSeqL [.wordB, reLit "chown", rePlus reWs, reLit "root", .wordB]
    ci := false, severity := .high, reason := "Ownership change to root" }

/-- Pattern `chmod\s+[ug]\+s` -/
def patChmodSetuid : PatternSpec :=
  { pattern := "chmod\\s+[ug]\\+s"
    re := reSeqL [reLit "chmod", rePlus reWs, .cls false [.one 'u', .one 'g'],
      .ch '+', .ch 's']
    ci := false, severity := .high
    reason := "Setuid/setgid bit — privilege inheritance on execution" }

/-- Pattern `curl\s.*\|\s*(ba)?sh` -/
def patCurlSh : PatternSpec :=
  { pattern := "curl\\s.*\\|\\s*(ba)?sh"
    re := reSeqL [reLit "curl", reWs, .star .dot, .ch '|', .star reWs,
      reOpt (reLit "ba"), reLit "sh"]
    ci := false, severity := .critical, reason := "Remote code execution via pipe to shell" }

/-- Pattern `\beval\b.*\$` -/
def patEval : PatternSpec :=
  { pattern := "\\beval\\b.*\\$"
    re := reSeqL [.wordB, reLit "eval", .wordB, .star .dot, .ch '$']
    ci := false, severity := .high, reason := "Dynamic eval with variable expansion" }

/-- Pattern `npm\s+install\s+.*--registry\s+(?!https://registry\.npmjs\.org)` -/
def patNpmRegistry : PatternSpec :=
  { pattern := "npm\\s+install\\s+.*--registry\\s+(?!https://registry\\.npmjs\\.org)"
    re := reSeqL [reLit "npm", rePlus reWs, reLit "install", rePlus reWs, .star .dot,
      reLit "--registry", rePlus reWs, .nla (reLit "https://registry.npmjs.org")]
    ci := false, severity := .medium, reason := "npm install from non-standard registry" }

/-- Pattern `pip\s+install\s+https?://` -/
def patPipUrl : PatternSpec :=
  { pattern := "pip\\s+install\\s+https?://"
    re := reSeqL [reLit "pip", rePlus reWs, reLit "install", rePlus reWs,
      reLit "http", reOpt (.ch 's'), reLit "://"]
    ci := false, severity := .medium, reason := "pip install from URL — untrusted package source" }

/-- Pattern `169\.254\.169\.254` -/
def patAwsMeta : PatternSpec :=
  { pattern := "169\\.254\\.169\\.254", re := reLit "169.254.169.254"
    ci := false, severity := .critical, reason := "AWS metadata endpoint — SSRF vector" }

/-- Pattern `metadata\.google\.internal` -/
def patGcpMeta : PatternSpec :=
  { pattern := "metadata\\.google\\.internal", re := reLit "metadata.google.internal"
    ci := false, severity := .critical, reason := "GCP metadata endpoint — SSRF vector" }

def b64Cls : Re :=
  .cls false [.range 'A' 'Z', .range 'a' 'z', .range '0' '9', .one '+', .one '/',
    .one '=', .one '_', .one '-']

/-- Pattern `(?:api[_-]?key|apikey|secret[_-]?key|access[_-]?token)\s*[:=]\s*['\"]?[A-Za-z0-9+/=_-]{20,}` with flag `i` -/
def patApiKey : PatternSpec :=
  { pattern := "(?:api[_-]?key|apikey|secret[_-]?key|access[_-]?token)\\s*[:=]\\s*['\"]?[A-Za-z0-9+/=_-]\x7b20,\x7d"
    re := reSeqL [reAltL
        [reSeqL [reLit "api", reOpt underDashCls, reLit "key"],
         reLit "apikey",
         reSeqL [reLit "secret", reOpt underDashCls, reLit "key"],
         reSeqL [reLit "access", reOpt underDashCls, reLit "token"]],
      .star reWs, .cls false [.one ':', .one '='], .star reWs,
      reOpt (.cls false [.one '\'', .one '"']), reRepGe 20 b64Cls]
    ci := true, severity := .high, reason := "Potential API key or secret in content" }

/-- Pattern `-----BEGIN (RSA |EC |DSA |OPENSSH )?PRIVATE KEY-----` -/
def patPrivKey : PatternSpec :=
  { pattern := "-----BEGIN (RSA |EC |DSA |OPENSSH )?PRIVATE KEY-----"
    re := reSeqL [reLit "-----BEGIN ",
      reOpt (reAltL [reLit "RSA ", reLit "EC ", reLit "DSA ", reLit "OPENSSH "]),
      reLit "PRIVATE KEY-----"]
    ci := false, severity := .critical, reason := "Private key in content" }

/-- Pattern `AKIA[0-9A-Z]{16}` -/
def patAkia : PatternSpec :=
  { pattern := "AKIA[0-9A-Z]\x7b16\x7d"
    re := .seq (reLit "AKIA") (reRepN 16 (.cls false [.range '0' '9', .range 'A' 'Z']))
    ci := false, severity := .critical, reason := "AWS access key ID" }

/-- Pattern `sk-[a-zA-Z0-9]{20,}` -/
def patSk : PatternSpec :=
  { pattern := "sk-[a-zA-Z0-9]\x7b20,\x7d"
    re := .seq (reLit "sk-") (reRepGe 20 (.cls false [.range 'a' 'z', .range 'A' 'Z', .range '0' '9']))
    ci := false, severity := .high, reason := "Potential API secret key (OpenAI, Stripe, etc.)" }

/-- Pattern `\.env$` -/
def patEnvFile : FilePatternSpec :=
  { pattern := "\\.env$", re := .seq (reLit ".env") .eos
    operations := [.write, .delete, .git_add], severity := .high
    reason := "Environment file with potential secrets" }

/-- Pattern `credentials\.json$` -/
def patCredsFile : FilePatternSpec :=
  { pattern := "credentials\\.json$", re := .seq (reLit "credentials.json") .eos
    operations := [.write, .delete, .git_add], severity := .critical
    reason := "Credentials file" }

/-- Pattern `id_rsa$|id_ed25519$|\.pem$` -/
def patKeyFile : FilePatternSpec :=
  { pattern := "id_rsa$|id_ed25519$|\\.pem$"
    re := reAltL [.seq (reLit "id_rsa") .eos, .seq (reLit "id_ed25519") .eos,
      .seq (reLit ".pem") .eos]
    operations := [.read, .write, .delete, .git_add], severity := .critical
    reason := "Private key file" }

def DESTRUCTIVE_PATTERNS : List PatternSpec :=
  [patRmForce, patRmRecursive, patGitPushForce, patGitResetHard, patGitClean,
   patDrop, patTruncate, patMkfs, patDd, patKill9, patPkill9]

def PRIVILEGE_PATTERNS : List PatternSpec :=
  [patSudo, patChmod777, patChownRoot, patChmodSetuid]

def EXFILTRATION_COMMAND_PATTERNS : List PatternSpec := [patCurlSh, patEval]

def SUPPLY_CHAIN_PATTERNS : List PatternSpec := [patNpmRegistry, patPipUrl]

def NETWORK_PATTERNS : List PatternSpec := [patAwsMeta, patGcpMeta]

def SECRET_CONTENT_PATTERNS : List PatternSpec := [patApiKey, patPrivKey, patAkia, patSk]

def SECRET_FILE_PATTERNS : List FilePatternSpec := [patEnvFile, patCredsFile, patKeyFile]

/-- Modelled from the spec: the shipped default policy file
`.guardian/policy.default.json` is not part of `src/` (only the pattern
bundles it draws on are). Per the spec and the repository README, the default
policy is: mode `enforce`; the bundled command / secret / network / file
patterns as blocklist; empty allowlists; scope `allowed_paths = ["{cwd}"]`,
`denied_paths = ["/etc", "/usr", "/var", "/sys"]`, `allow_outside_cwd =
false`; budget disabled with `max_actions_per_session = 500`, no cost limit;
audit enabled at `.guardian/audit.jsonl` with `sha256-chain` integrity; kill
switch enabled with exit code 2. -/
def defaultPolicy : Policy :=
  { version := 1
    mode := .enforce
    blocklist :=
      { commands := DESTRUCTIVE_PATTERNS ++ PRIVILEGE_PATTERNS ++
          EXFILTRATION_COMMAND_PATTERNS ++ SUPPLY_CHAIN_PATTERNS
        file_patterns := SECRET_FILE_PATTERNS
        secret_patterns := SECRET_CONTENT_PATTERNS
        network := NETWORK_PATTERNS }
    allowlist := { commands := [], paths := [], domains := [] }
    scope := { allowed_paths := ["{cwd}"], denied_paths := ["/etc", "/usr", "/var", "/sys"]
               allow_outside_cwd := false }
    budget := { enabled := false, max_actions_per_session := 500,
                session_limit_usd := none, cost_file := ".guardian/costs.json",
                action_on_breach := .kill }
    audit := { enabled := true, path := ".guardian/audit.jsonl",
               include_tool_input := true, include_tool_output := false,
               integrity := .sha256chain, max_file_size_mb := 50, rotation := .daily }
    kill_switch := { enabled := true, on_blocklist_critical := true,
                     on_budget_breach := true, on_integrity_violation := true,
                     exit_code := 2 } }

/-- JavaScript `String.prototype.startsWith`, kernel-reducible (the core
`String.startsWith` recurses on byte positions and does not reduce). -/
def jsStartsWith (s pre : String) : Bool := pre.data.isPrefixOf s.data

/-- Split on a single separator character (the `String.splitOn` semantics
needed here, kernel-reducible). -/
def splitCharGo (sep : Char) (cur : List Char) : List Char → List (List Char)
  | [] => [cur.reverse]
  | c :: cs =>
    if c = sep then cur.reverse :: splitCharGo sep [] cs
    else splitCharGo sep (c :: cur) cs

def splitChar (s : String) (sep : Char) : List String :=
  (splitCharGo sep [] s.data).map (fun l => ⟨l⟩)

/-- The remainder after the first occurrence of `://`. -/
def afterScheme : List Char → Option (List Char)
  | ':' :: '/' :: '/' :: rest => some rest
  | _ :: rest => afterScheme rest
  | [] => none

/-! ## Blocklist gate (src/blocklist.ts:173-307) -/

/-- Translation of `matchPatterns` (src/blocklist.ts:163-171): first pattern whose regex
tests true. -/
def matchPatterns (text : String) (ps : List PatternSpec) : Option PatternSpec :=
  ps.find? (fun p => reTest p.ci p.re text)

/-- The deny result built from a matched pattern. -/
def blockResult (p : PatternSpec) : ValidationResult :=
  ⟨false, some p.reason, some p.severity, some p.pattern, some .blocklist⟩

def fileBlockResult (p : FilePatternSpec) : ValidationResult :=
  ⟨false, some p.reason, some p.severity, some p.pattern, some .blocklist⟩

/-- The Write/Edit/Read file-pattern loop: on a regex match the source looks
the pattern text back up in the policy (`find`) and denies iff that entry's
`operations` contains `op`; otherwise the loop continues. -/
def fileOpMatch (policy : Policy) (filePath : String) (op : FileOp) :
    Option ValidationResult :=
  policy.blocklist.file_patterns.findSome? (fun p =>
    if reTest false p.re filePath then
      match policy.blocklist.file_patterns.find? (fun fp => fp.pattern = p.pattern) with
      | some fp => if fp.operations.contains op then some (fileBlockResult p) else none
      | none => none
    else none)

/-- Translation of `checkBlocklist` (src/blocklist.ts:173-307). -/
def checkBlocklist (input : HookInput) (policy : Policy) : Option ValidationResult :=
  let tool := input.tool_name
  let toolInput := input.tool_input
  if tool = "Bash" then
    let command := getStr toolInput "command"
    let cmdPatterns := policy.blocklist.commands
    match matchPatterns (stripQuotedStrings command) cmdPatterns with
    | some p => some (blockResult p)
    | none =>
      match (splitShellCommand command).findSome?
          (fun seg => matchPatterns (stripQuotedStrings seg) cmdPatterns) with
      | some p => some (blockResult p)
      | none =>
        match (extractSubcommands command).findSome?
            (fun sub => matchPatterns sub cmdPatterns) with
        | some p => some (blockResult p)
        | none =>
          match matchPatterns command policy.blocklist.network with
          | some p => some (blockResult p)
          | none => none
  else if tool = "Write" ∨ tool = "Edit" then
    match fileOpMatch policy (getStr toolInput "file_path") .write with
    | some r => some r
    | none =>
      let content :=
        match getStrOpt toolInput "content" with
        | some s => s
        | none => (getStrOpt toolInput "new_string").getD ""
      if content ≠ "" then
        (matchPatterns content policy.blocklist.secret_patterns).map blockResult
      else none
  else if tool = "Read" then
    fileOpMatch policy (getStr toolInput "file_path") .read
  else if tool = "WebFetch" then
    (matchPatterns (getStr toolInput "url") policy.blocklist.network).map blockResult
  else if jsStartsWith tool "mcp__" then
    toolInput.findSome? (fun kv =>
      match matchPatterns kv.2 policy.blocklist.commands with
      | some p => some (blockResult p)
      | none =>
        match matchPatterns kv.2 policy.blocklist.network with
        | some p => some (blockResult p)
        | none => (matchPatterns kv.2 policy.blocklist.secret_patterns).map blockResult)
  else none

/-! ## Allowlist and scope gates (validator.ts, shipped inside
src/patterns/privilege.ts:32-99) -/

/-- Modelled from the spec: `new URL(url).hostname` is a runtime facility;
simplified WHATWG parsing — text between `://` and the first `/`, `?` or
`#`, userinfo and port stripped, lowercased; no `://` means the constructor
throws, i.e. no allowlist match. -/
def urlHost (url : String) : Option String :=
  match afterScheme url.data with
  | some rest =>
    let hostPort := rest.takeWhile (fun c => c ≠ '/' ∧ c ≠ '?' ∧ c ≠ '#')
    let afterUser := (splitCharGo '@' [] hostPort).getLastD hostPort
    let host := afterUser.takeWhile (fun c => c ≠ ':')
    if host.isEmpty then none else some ⟨host.map lowerAscii⟩
  | none => none

/-- Translation of `checkAllowlist` (validator.ts lines 32-55). -/
def checkAllowlist (input : HookInput) (policy : Policy) : Bool :=
  (input.tool_name = "Bash" &&
    policy.allowlist.commands.contains (getStr input.tool_input "command")) ||
  (let filePath := getStr input.tool_input "file_path"
   filePath ≠ "" && policy.allowlist.paths.any (fun p => jsStartsWith filePath p)) ||
  (input.tool_name = "WebFetch" &&
    match urlHost (getStr input.tool_input "url") with
    | some h => policy.allowlist.domains.contains h
    | none => false)

/-- JavaScript `String.prototype.replace` with a string pattern: replace the
*first* occurrence only (`$`-patterns in the replacement are not modeled;
no working directory in this file contains them). -/
def replaceFirstGo (pat rep : List Char) : List Char → List Char
  | [] => []
  | c :: cs =>
    if pat.isPrefixOf (c :: cs) then rep ++ (c :: cs).drop pat.length
    else c :: replaceFirstGo pat rep cs

def jsReplaceFirst (s pat rep : String) : String :=
  ⟨replaceFirstGo pat.data rep.data s.data⟩

/-- Segment normalization of `path.posix`: drop empty and `.` segments, pop
on `..` (staying at root when empty). -/
def normSegsGo (acc : List String) : List String → List String
  | [] => acc.reverse
  | seg :: rest =>
    if seg = "" ∨ seg = "." then normSegsGo acc rest
    else if seg = ".." then normSegsGo acc.tail rest
    else normSegsGo (seg :: acc) rest

def normalizeAbs (p : String) : String :=
  "/" ++ String.intercalate "/" (normSegsGo [] (splitChar p '/'))

/-- Model of `path.resolve(cwd, filePath)` (POSIX): an absolute `filePath` is
normalized alone, otherwise it is joined onto `cwd`. When neither is
absolute Node would fall back to the process working directory; this model
roots such paths at `/` (every path in this file is absolute). -/
def pathResolve (cwd fp : String) : String :=
  if jsStartsWith fp "/" then normalizeAbs fp
  else if jsStartsWith cwd "/" then normalizeAbs (cwd ++ "/" ++ fp)
  else normalizeAbs ("/" ++ cwd ++ "/" ++ fp)

/-- Translation of `checkScope` (validator.ts lines 57-99). Note the source expands
`{cwd}` with JavaScript `replace`, i.e. at its first occurrence only. -/
def checkScope (input : HookInput) (policy : Policy) (cwd : String) :
    Option ValidationResult :=
  if getStr input.tool_input "file_path" = "" then none
  else
    match policy.scope.denied_paths.find?
        (fun d => jsStartsWith (pathResolve cwd (getStr input.tool_input "file_path")) d) with
    | some denied =>
      some ⟨false, some ("Path in denied scope: " ++ denied), some .high,
        some denied, some .scope⟩
    | none =>
      if !policy.scope.allow_outside_cwd then
        if (policy.scope.allowed_paths.map (fun p => jsReplaceFirst p "{cwd}" cwd)).any
            (fun a => jsStartsWith (pathResolve cwd (getStr input.tool_input "file_path")) a) then
          none
        else
          some ⟨false, some ("Path outside allowed scope: " ++
              pathResolve cwd (getStr input.tool_input "file_path")),
            some .high, some cwd, some .scope⟩
      else none

/-! ## Budget gate (src/budget.ts) -/

/-- JavaScript `Number.prototype.toFixed(2)` on the cost values, modeled as
exact rounding of the rational to hundredths (float artifacts are out of
scope; no theorem in this file evaluates a cost breach reason). -/
def fmtUsd (q : Rat) : String :=
  let cents : Int := ⌊q * 100 + 1 / 2⌋
  let a := cents.natAbs
  (if cents < 0 then "-" else "") ++ toString (a / 100) ++ "." ++
    (if a % 100 < 10 then "0" else "") ++ toString (a % 100)

/-- Translation of `checkBudget` (src/budget.ts:8-55). The module counter is threaded as
`count`; `cost` is the oracle for the cost file at
`path.resolve(cwd, budget.cost_file)`: `some v` when the file exists and
parses with numeric `total_cost_usd = v`, `none` when missing or unreadable
(all such failures fall through identically in the source). The counter
increments before any other check, enabled or not. -/
def checkBudget (policy : Policy) (cost : Option Rat) (count : Nat) :
    BudgetState × Nat :=
  let c := count + 1
  if !policy.budget.enabled then (⟨c, none, false, none⟩, c)
  else if policy.budget.max_actions_per_session > 0 ∧
      (c : Int) > policy.budget.max_actions_per_session then
    (⟨c, none, true, some ("Action limit exceeded: " ++ toString c ++ "/" ++
      toString policy.budget.max_actions_per_session)⟩, c)
  else
    match policy.budget.session_limit_usd with
    | some limit =>
      if policy.budget.cost_file ≠ "" then
        match cost with
        | some cv =>
          if limit ≤ cv then
            (⟨c, some cv, true, some ("Cost limit exceeded: $" ++ fmtUsd cv ++
              "/$" ++ fmtUsd limit)⟩, c)
          else (⟨c, some cv, false, none⟩, c)
        | none => (⟨c, none, false, none⟩, c)
      else (⟨c, none, false, none⟩, c)
    | none => (⟨c, none, false, none⟩, c)

/-! ## Kill switch (src/kill.ts) -/

/-- JavaScript template interpolation of a possibly-null string. -/
def jsStrOfOpt : Option String → String
  | some s => s
  | none => "null"

/-- Translation of `shouldKill` (src/kill.ts:3-37). -/
def shouldKill (policy : Policy) (result : ValidationResult)
    (budgetState : BudgetState) : Bool × String :=
  if !policy.kill_switch.enabled then (false, "")
  else if policy.kill_switch.on_blocklist_critical ∧ result.allowed = false ∧
      result.severity = some .critical then
    (true, "Critical policy violation: " ++ jsStrOfOpt result.reason)
  else if policy.kill_switch.on_budget_breach ∧ budgetState.exceeded ∧
      policy.budget.action_on_breach = .kill then
    (true, "Budget exceeded: " ++ jsStrOfOpt budgetState.breach_reason)
  else (false, "")

/-! ## Decision pipeline (validator.ts lines 101-187)

The pipeline's observable behavior is collected in a `PipeOut`: the returned
result, the action counter after the call, the `ValidationResult`s handed to
`writeAuditEntry` in order (an entry is recorded only when `audit.enabled`,
mirroring the early return of `writeAuditEntry`), and whether `executeKill`
fired (terminating the process). -/

structure PipeOut where
  res : ValidationResult
  count : Nat
  writes : List ValidationResult
  killed : Bool
deriving DecidableEq, Repr

def allowNullResult : ValidationResult := ⟨true, none, none, none, none⟩

/-- Translation of `validate` (validator.ts lines 101-164). In the enforce-mode budget
branch the source writes an audit entry and consults the kill switch before
returning; everywhere else `validate` itself performs no effects beyond the
`checkBudget` increment. -/
def validateRun (input : HookInput) (policy : Policy) (cwd : String)
    (cost : Option Rat) (count : Nat) : PipeOut :=
  if policy.mode = .off then ⟨allowNullResult, count, [], false⟩
  else if checkAllowlist input policy then
    ⟨⟨true, none, none, none, some .allowlist⟩, count, [], false⟩
  else
    match checkScope input policy cwd with
    | some scopeResult =>
      if policy.mode = .audit then ⟨{ scopeResult with allowed := true }, count, [], false⟩
      else ⟨scopeResult, count, [], false⟩
    | none =>
      match checkBlocklist input policy with
      | some blocklistResult =>
        if policy.mode = .audit then
          ⟨{ blocklistResult with allowed := true }, count, [], false⟩
        else ⟨blocklistResult, count, [], false⟩
      | none =>
        let bo := checkBudget policy cost count
        if bo.1.exceeded then
          let budgetResult : ValidationResult :=
            ⟨false, bo.1.breach_reason, some .high, none, some .budget⟩
          if policy.mode = .audit then
            ⟨{ budgetResult with allowed := true }, bo.2, [], false⟩
          else
            ⟨budgetResult, bo.2,
              (if policy.audit.enabled then [budgetResult] else []),
              (shouldKill policy budgetResult bo.1).1⟩
        else ⟨allowNullResult, bo.2, [], false⟩

/-- Translation of `validateAndAudit` (validator.ts lines 166-187): run `validate`, call
`checkBudget` *again* for the audit snapshot, write the audit entry, and
consult the kill switch for critical denials. If `validate` already killed
the process, nothing further runs. -/
def validateAndAuditRun (input : HookInput) (policy : Policy) (cwd : String)
    (cost : Option Rat) (count : Nat) : PipeOut :=
  let v := validateRun input policy cwd cost count
  if v.killed then v
  else
    let bo := checkBudget policy cost v.count
    let writes := v.writes ++ (if policy.audit.enabled then [v.res] else [])
    if v.res.allowed = false ∧ v.res.severity = some .critical then
      ⟨v.res, bo.2, writes, (shouldKill policy v.res bo.1).1⟩
    else ⟨v.res, bo.2, writes, false⟩

/-- Sequential processing of several requests by one Guardian process:
thread the counter, stop when the kill switch terminated the process. -/
def processAll (policy : Policy) (cwd : String) (cost : Option Rat) :
    Nat → List HookInput → List ValidationResult × Nat
  | count, [] => ([], count)
  | count, i :: is =>
    let o := validateAndAuditRun i policy cwd cost count
    if o.killed then ([o.res], o.count)
    else
      let rc := processAll policy cwd cost o.count is
      (o.res :: rc.1, rc.2)

/-- A `Bash` request with the given command. -/
def bashInput (cmd : String) : HookInput :=
  ⟨"Bash", [("command", cmd)], some "test", none⟩

/-! ## SHA-256 (Node `crypto.createHash("sha256")`)

An executable SHA-256 over byte lists, words as `Nat` truncated mod `2^32`.
Strings are hashed through their UTF-8 bytes, matching `update(payload)` on
a JavaScript string. -/

def w32 (x : Nat) : Nat := x % 4294967296

def rotr (n x : Nat) : Nat := w32 ((x >>> n) ||| (x <<< (32 - n)))

def shaCh (x y z : Nat) : Nat := (x &&& y) ^^^ ((x ^^^ 4294967295) &&& z)

def shaMaj (x y z : Nat) : Nat := (x &&& y) ^^^ (x &&& z) ^^^ (y &&& z)

def bigS0 (x : Nat) : Nat := rotr 2 x ^^^ rotr 13 x ^^^ rotr 22 x

def bigS1 (x : Nat) : Nat := rotr 6 x ^^^ rotr 11 x ^^^ rotr 25 x

def smallS0 (x : Nat) : Nat := rotr 7 x ^^^ rotr 18 x ^^^ (x >>> 3)

def smallS1 (x : Nat) : Nat := rotr 17 x ^^^ rotr 19 x ^^^ (x >>> 10)

/-- The 64 SHA-256 round constants of FIPS 180-4, in decimal. -/
def shaK : List Nat :=
  [1116352408, 1899447441, 3049323471, 3921009573, 961987163, 1508970993,
   2453635748, 2870763221, 3624381080, 310598401, 607225278, 1426881987,
   1925078388, 2162078206, 2614888103, 3248222580, 3835390401, 4022224774,
   264347078, 604807628, 770255983, 1249150122, 1555081692, 1996064986,
   2554220882, 2821834349, 2952996808, 3210313671, 3336571891, 3584528711,
   113926993, 338241895, 666307205, 773529912, 1294757372, 1396182291,
   1695183700, 1986661051, 2177026350, 2456956037, 2730485921, 2820302411,
   3259730800, 3345764771, 3516065817, 3600352804, 4094571909, 275423344,
   430227734, 506948616, 659060556, 883997877, 958139571, 1322822218,
   1537002063, 1747873779, 1955562222, 2024104815, 2227730452, 2361852424,
   2428436474, 2756734187, 3204031479, 3329325298]

/-- The eight SHA-256 initial state words, in decimal. -/
def shaH0 : List Nat :=
  [1779033703, 3144134277, 1013904242, 2773480762, 1359893119, 2600822924,
   528734635, 1541459225]

/-- Big-endian 32-bit words from bytes (length a multiple of 4). -/
def wordsOfBytes : List Nat → List Nat
  | b0 :: b1 :: b2 :: b3 :: rest =>
    (b0 * 16777216 + b1 * 65536 + b2 * 256 + b3) :: wordsOfBytes rest
  | _ => []

/-- Extend the 16 block words by `i` further schedule words. -/
def extendWords (ws : List Nat) (i : Nat) : List Nat :=
  match i with
  | 0 => ws
  | i + 1 =>
    let ws' := extendWords ws i
    let n := ws'.length
    let g (k : Nat) : Nat := ws'.getD (n - k) 0
    ws' ++ [w32 (smallS1 (g 2) + g 7 + smallS0 (g 15) + g 16)]

/-- One round of the compression function. -/
def shaRound (st : List Nat) (kw : Nat × Nat) : List Nat :=
  match st with
  | [a, b, c, d, e, f, g, h] =>
    let t1 := w32 (h + bigS1 e + shaCh e f g + kw.1 + kw.2)
    let t2 := w32 (bigS0 a + shaMaj a b c)
    [w32 (t1 + t2), a, b, c, w32 (d + t1), e, f, g]
  | st => st

/-- Compress one 64-byte block into the state. -/
def shaBlock (st : List Nat) (block : List Nat) : List Nat :=
  let ws := extendWords (wordsOfBytes block) 48
  let fin := (shaK.zip ws).foldl shaRound st
  (st.zip fin).map (fun p => w32 (p.1 + p.2))

/-- Blocks of 64 bytes, current block accumulated in reverse. -/
def toBlocksAux : List Nat → List Nat → List (List Nat)
  | cur, [] => if cur.isEmpty then [] else [cur.reverse]
  | cur, b :: bs =>
    if cur.length = 63 then (b :: cur).reverse :: toBlocksAux [] bs
    else toBlocksAux (b :: cur) bs

def toBlocks (bs : List Nat) : List (List Nat) := toBlocksAux [] bs

/-- Big-endian 8-byte encoding. -/
def be64 (n : Nat) : List Nat :=
  [n >>> 56 % 256, n >>> 48 % 256, n >>> 40 % 256, n >>> 32 % 256,
   n >>> 24 % 256, n >>> 16 % 256, n >>> 8 % 256, n % 256]

/-- Padding: `0x80`, zeros, then the 64-bit big-endian bit length. -/
def shaPad (msg : List Nat) : List Nat :=
  let l := msg.length
  let zeros := (55 + 64 - l % 64) % 64
  msg ++ 128 :: List.replicate zeros 0 ++ be64 (l * 8)

/-- SHA-256 digest bytes of a byte list. -/
def sha256 (msg : List Nat) : List Nat :=
  let st := (toBlocks (shaPad msg)).foldl shaBlock shaH0
  st.foldr (fun wd acc =>
    wd >>> 24 % 256 :: wd >>> 16 % 256 :: wd >>> 8 % 256 :: wd % 256 :: acc) []

def hexDigit (n : Nat) : Char := Char.ofNat (if n < 10 then 48 + n else 87 + n)

def bytesToHex (bs : List Nat) : String :=
  ⟨bs.foldr (fun b acc => hexDigit (b / 16 % 16) :: hexDigit (b % 16) :: acc) []⟩

/-- UTF-8 encoding of one character. -/
def utf8Char (c : Char) : List Nat :=
  let n := c.toNat
  if n < 128 then [n]
  else if n < 2048 then [192 + n / 64, 128 + n % 64]
  else if n < 65536 then [224 + n / 4096, 128 + n / 64 % 64, 128 + n % 64]
  else [240 + n / 262144, 128 + n / 4096 % 64, 128 + n / 64 % 64, 128 + n % 64]

def utf8Bytes (s : String) : List Nat := s.data.flatMap utf8Char

/-- Model of `createHash("sha256").update(s).digest("hex")`. -/
def sha256Hex (s : String) : String := bytesToHex (sha256 (utf8Bytes s))

/-! ## Audit entries and their serialization (audit.ts, shipped inside
src/patterns/privilege.ts:188-345)

`JSON.stringify` on the writer's object literal serializes the fields in
insertion order with no whitespace. The entry is modeled at that
granularity: tool input as the string map it is in every spec scenario, the
`remaining_usd` number carried as its serialized decimal form (JavaScript
float-to-string is outside the embedding; `v`, `seq` and `action_count` are
the integers the writer produces and serialize as `toString`). -/

structure AuditBudgetSnap where
  remaining_usd : Option String
  action_count : Nat
deriving DecidableEq, Repr

/-- The record `Omit<AuditEntry, "hash">`, in the writer's field order. -/
structure EntryCore where
  v : Nat
  ts : String
  sid : String
  seq : Nat
  tool : String
  input : Option (List (String × String))
  allowed : Bool
  reason : Option String
  severity : Option Severity
  policy_match : Option String
  budget : Option AuditBudgetSnap
  cwd : String
deriving DecidableEq, Repr

/-- String escaping of `JSON.stringify`. -/
def jsonEscapeChar (c : Char) : List Char :=
  if c = '"' then ['\\', '"']
  else if c = '\\' then ['\\', '\\']
  else if c.toNat = 8 then ['\\', 'b']
  else if c.toNat = 9 then ['\\', 't']
  else if c.toNat = 10 then ['\\', 'n']
  else if c.toNat = 12 then ['\\', 'f']
  else if c.toNat = 13 then ['\\', 'r']
  else if c.toNat < 32 then
    ['\\', 'u', '0', '0', hexDigit (c.toNat / 16), hexDigit (c.toNat % 16)]
  else [c]

def jstr (s : String) : String := "\"" ++ ⟨s.data.flatMap jsonEscapeChar⟩ ++ "\""

def joptStr : Option String → String
  | none => "null"
  | some s => jstr s

/-- A JSON object of string values, insertion order. -/
def jobjStrMap (kvs : List (String × String)) : String :=
  "\x7b" ++ String.intercalate "," (kvs.map (fun kv => jstr kv.1 ++ ":" ++ jstr kv.2)) ++ "\x7d"

def severityStr : Severity → String
  | .critical => "critical"
  | .high => "high"
  | .medium => "medium"
  | .low => "low"

/-- Model of `JSON.stringify(entryWithoutHash)`. -/
def serializeEntryCore (e : EntryCore) : String :=
  "\x7b\"v\":" ++ toString e.v ++
  ",\"ts\":" ++ jstr e.ts ++
  ",\"sid\":" ++ jstr e.sid ++
  ",\"seq\":" ++ toString e.seq ++
  ",\"tool\":" ++ jstr e.tool ++
  ",\"input\":" ++ (match e.input with | none => "null" | some ti => jobjStrMap ti) ++
  ",\"allowed\":" ++ (if e.allowed then "true" else "false") ++
  ",\"reason\":" ++ joptStr e.reason ++
  ",\"severity\":" ++ (match e.severity with | none => "null" | some s => jstr (severityStr s)) ++
  ",\"policy_match\":" ++ joptStr e.policy_match ++
  ",\"budget\":" ++ (match e.budget with
    | none => "null"
    | some b => "\x7b\"remaining_usd\":" ++
        (match b.remaining_usd with | none => "null" | some n => n) ++
        ",\"action_count\":" ++ toString b.action_count ++ "\x7d") ++
  ",\"cwd\":" ++ jstr e.cwd ++ "\x7d"

/-- Translation of `computeHash` (audit.ts lines 196-199):
`"sha256:" + hex(SHA256(prevHash + JSON.stringify(entryWithoutHash)))`. -/
def computeHash (prevHash : String) (e : EntryCore) : String :=
  "sha256:" ++ sha256Hex (prevHash ++ serializeEntryCore e)

structure AuditEntry where
  core : EntryCore
  hash : String
deriving DecidableEq, Repr

/-- The writer's chaining loop for `integrity = "sha256-chain"`: starting
from the module `lastHash` (`""` for a fresh file), each appended entry gets
`computeHash` of the previous hash and its own body, and `lastHash` becomes
that hash (audit.ts lines 285-309, restricted to the hash state; rotation,
sequencing, and tail recovery do not alter how hashes chain within one
file). -/
def writeChainGo (prev : String) : List EntryCore → List AuditEntry
  | [] => []
  | e :: es =>
    let h := computeHash prev e
    ⟨e, h⟩ :: writeChainGo h es

/-- An audit file freshly produced by `writeAuditEntry`: the chain grown
from `lastHash = ""`. -/
def writeChain (es : List EntryCore) : List AuditEntry := writeChainGo "" es

/-- The hash the chain carries just before index `i` (`""` before the first
entry). -/
def chainLast (prev : String) : List EntryCore → String
  | [] => prev
  | e :: es => chainLast (computeHash prev e) es

def chainPrev (bodies : List EntryCore) (i : Nat) : String :=
  chainLast "" (bodies.take i)

structure VerifyOut where
  valid : Bool
  entries : Nat
  brokenAt : Option Nat
deriving DecidableEq, Repr

/-- The verifier loop of `verifyAuditChain` (audit.ts lines 312-345) over
parsed lines: recompute each hash from the previous one and the entry body;
mismatch at 0-based position `i` reports `brokenAt = i + 1` with `entries`
the total line count. (The unparseable-line early exit has no counterpart at
this granularity: every mutation considered here yields a well-formed line.) -/
def verifyGo (n idx : Nat) (prev : String) : List AuditEntry → VerifyOut
  | [] => ⟨true, n, none⟩
  | e :: es =>
    if e.hash ≠ computeHash prev e.core then ⟨false, n, some (idx + 1)⟩
    else verifyGo n (idx + 1) e.hash es

/-- Translation of `verifyAuditChain` on a file holding the given entries (an empty list is
the empty-or-absent file, valid with zero entries). -/
def verifyAuditChain (es : List AuditEntry) : VerifyOut :=
  verifyGo es.length 0 "" es

/-! ## Chain lemmas -/

lemma writeChainGo_length (prev : String) (es : List EntryCore) :
    (writeChainGo prev es).length = es.length := by
  induction es generalizing prev with
  | nil => rfl
  | cons e es ih => simp [writeChainGo, ih]

lemma verifyGo_writeChainGo (es : List EntryCore) (n : Nat) :
    ∀ (idx : Nat) (prev : String),
      verifyGo n idx prev (writeChainGo prev es) = ⟨true, n, none⟩ := by
  induction es with
  | nil => intro idx prev; rfl
  | cons e es ih => intro idx prev; simp [writeChainGo, verifyGo, ih]

/-- Every entry of a written chain carries the hash of the previous hash
string (the seed for the first entry) and its own body. -/
lemma writeChainGo_hash_eq (es : List EntryCore) :
    ∀ (prev : String) (pre post : List AuditEntry) (e : AuditEntry),
      writeChainGo prev es = pre ++ e :: post →
      e.hash = computeHash (pre.getLast?.elim prev AuditEntry.hash) e.core := by
  induction es with
  | nil =>
    intro prev pre post e h
    simp [writeChainGo] at h
  | cons b bs ih =>
    intro prev pre post e h
    simp only [writeChainGo] at h
    cases pre with
    | nil =>
      simp only [List.nil_append, List.cons.injEq] at h
      rw [← h.1]
      rfl
    | cons p pre' =>
      simp only [List.cons_append, List.cons.injEq] at h
      have htail := ih (computeHash prev b) pre' post e h.2
      cases pre' with
      | nil =>
        simpa [← h.1] using htail
      | cons q pre'' =>
        simpa [List.getLast?_cons_cons] using htail

/-- Verification of a chain mutated at position `i`: positions before `i`
still verify, and at `i` the recomputed hash misses, so the scan stops
there. -/
lemma verifyGo_set_mut (n : Nat) (es : List EntryCore) :
    ∀ (prev : String) (i idx : Nat) (m : AuditEntry), i < es.length →
      m.hash ≠ computeHash (chainLast prev (es.take i)) m.core →
      verifyGo n idx prev ((writeChainGo prev es).set i m) =
        ⟨false, n, some (idx + i + 1)⟩ := by
  induction es with
  | nil => intro prev i idx m hi; exact absurd hi (by simp)
  | cons b bs ih =>
    intro prev i idx m hi hm
    cases i with
    | zero =>
      simp only [List.take_zero, chainLast] at hm
      simp [writeChainGo, verifyGo, hm]
    | succ j =>
      have hj : j < bs.length := by simpa using hi
      have hm' : m.hash ≠ computeHash (chainLast (computeHash prev b) (bs.take j)) m.core := by
        simpa [chainLast] using hm
      have := ih (computeHash prev b) j (idx + 1) m hj hm'
      simp only [writeChainGo, List.set_cons_succ, verifyGo, ite_not]
      simp [this]
      omega

/-- C1: For every audit file produced by Guardian's `writeAuditEntry`, each
entry's hash field equals `"sha256:"` followed by the hex SHA-256 of the
previous entry's hash string (the empty string for the file's first entry)
concatenated with the whitespace-free insertion-order JSON serialization of
the entry without its hash field; consequently `verifyAuditChain` on such a
file returns `valid = true`, and mutating any field of any entry makes
`verifyAuditChain` return `valid = false` with `brokenAt` pointing at the
earliest altered entry or a later one. (Replacing entry `i` by any entry
whose stored hash differs from the recomputation over the unchanged prefix —
which is what mutating a single field produces, absent a SHA-256 collision —
breaks verification exactly at the 1-based position `i + 1`.) -/
theorem C1_audit_chain (bodies : List EntryCore) :
    (∀ (pre post : List AuditEntry) (e : AuditEntry),
      writeChain bodies = pre ++ e :: post →
      e.hash = "sha256:" ++
        sha256Hex (pre.getLast?.elim "" AuditEntry.hash ++ serializeEntryCore e.core))
  ∧ verifyAuditChain (writeChain bodies) = ⟨true, bodies.length, none⟩
  ∧ (∀ (i : Nat) (m : AuditEntry), i < (writeChain bodies).length →
      m.hash ≠ computeHash (chainPrev bodies i) m.core →
      verifyAuditChain ((writeChain bodies).set i m) =
        ⟨false, bodies.length, some (i + 1)⟩) := by
  refine ⟨?_, ?_, ?_⟩
  · intro pre post e h
    exact writeChainGo_hash_eq bodies "" pre post e h
  · have hlen : (writeChain bodies).length = bodies.length := writeChainGo_length "" bodies
    calc verifyAuditChain (writeChain bodies)
        = verifyGo (writeChain bodies).length 0 "" (writeChainGo "" bodies) := rfl
      _ = ⟨true, (writeChain bodies).length, none⟩ := verifyGo_writeChainGo bodies _ 0 ""
      _ = ⟨true, bodies.length, none⟩ := by rw [hlen]
  · intro i m hi hm
    have hlen : (writeChain bodies).length = bodies.length := writeChainGo_length "" bodies
    have hi' : i < bodies.length := hlen ▸ hi
    have h := verifyGo_set_mut ((writeChain bodies).set i m).length bodies "" i 0 m hi' hm
    simpa [verifyAuditChain, writeChain, writeChainGo_length "" bodies] using h

/-- First audit body of the concrete C1 chain. -/
def wBody1 : EntryCore :=
  ⟨1, "2025-01-01T00:00:00.000Z", "s1", 1, "Bash", some [("command", "ls")],
    true, none, none, none, none, "/w"⟩

/-- Second audit body of the concrete C1 chain. -/
def wBody2 : EntryCore :=
  ⟨1, "2025-01-01T00:00:01.000Z", "s1", 2, "Bash", some [("command", "pwd")],
    true, none, none, none, none, "/w"⟩

def wBodies : List EntryCore := [wBody1, wBody2]

/-- Entry 0 with a single field mutated (`allowed` flipped) and the stored
hash left as written — a tampered first line. -/
def wMut : AuditEntry :=
  ⟨{ wBody1 with allowed := false }, ((writeChain wBodies).headD ⟨wBody1, ""⟩).hash⟩

theorem C1_audit_chain_witness :
    (((writeChain wBodies).getLastD ⟨wBody1, ""⟩).hash = "sha256:" ++
      sha256Hex (((writeChain wBodies).take 1).getLast?.elim "" AuditEntry.hash ++
        serializeEntryCore ((writeChain wBodies).getLastD ⟨wBody1, ""⟩).core))
  ∧ verifyAuditChain (writeChain wBodies) = ⟨true, 2, none⟩
  ∧ verifyAuditChain ((writeChain wBodies).set 0 wMut) = ⟨false, 2, some 1⟩ := by
  refine ⟨?_, (C1_audit_chain wBodies).2.1, ?_⟩
  · exact (C1_audit_chain wBodies).1 ((writeChain wBodies).take 1)
      [] ((writeChain wBodies).getLastD ⟨wBody1, ""⟩) (by decide)
  · exact (C1_audit_chain wBodies).2.2 0 wMut (by decide) (by decide)

/-! ## Pipeline lemmas -/

/-- None of the gates reads `policy.mode`; replacing it is invisible to
them (definitional, by structure eta). -/
lemma checkAllowlist_mode (input : HookInput) (policy : Policy) (m : Mode) :
    checkAllowlist input { policy with mode := m } = checkAllowlist input policy := rfl

lemma checkScope_mode (input : HookInput) (policy : Policy) (cwd : String) (m : Mode) :
    checkScope input { policy with mode := m } cwd = checkScope input policy cwd := rfl

lemma checkBlocklist_mode (input : HookInput) (policy : Policy) (m : Mode) :
    checkBlocklist input { policy with mode := m } = checkBlocklist input policy := rfl

lemma checkBudget_mode (policy : Policy) (cost : Option Rat) (count : Nat) (m : Mode) :
    checkBudget { policy with mode := m } cost count = checkBudget policy cost count := rfl

/-- The action counter always lands at `count + 1`, whatever branch
`checkBudget` takes. -/
lemma checkBudget_snd (policy : Policy) (cost : Option Rat) (count : Nat) :
    (checkBudget policy cost count).2 = count + 1 := by
  unfold checkBudget
  dsimp only
  repeat' split
  all_goals rfl

/-- Every result `checkScope` produces carries `source = "scope"` (and is a
deny with severity high). -/
lemma checkScope_source (input : HookInput) (policy : Policy) (cwd : String)
    (r : ValidationResult) (h : checkScope input policy cwd = some r) :
    r.allowed = false ∧ r.severity = some .high ∧ r.source = some .scope := by
  unfold checkScope at h
  by_cases hfp : getStr input.tool_input "file_path" = ""
  · rw [if_pos hfp] at h; cases h
  · rw [if_neg hfp] at h
    rcases hfd : policy.scope.denied_paths.find?
        (fun d => jsStartsWith (pathResolve cwd (getStr input.tool_input "file_path")) d)
      with _ | d
    · rw [hfd] at h
      by_cases ho : policy.scope.allow_outside_cwd = true
      · simp [ho] at h
      · simp only [Bool.not_eq_true] at ho
        simp only [ho, Bool.not_false, if_true] at h
        split at h
        · cases h
        · rw [Option.some_inj] at h
          subst h
          exact ⟨rfl, rfl, rfl⟩
    · rw [hfd] at h
      rw [Option.some_inj] at h
      subst h
      exact ⟨rfl, rfl, rfl⟩

/-- C2: For every request evaluated with mode not equal to off, the pipeline
applies the four gates in the order allowlist, scope, blocklist, budget and
returns the first gate's verdict: an allowlist hit returns allow with source
"allowlist" and masks all later gates, and for any request where both the
scope gate and the blocklist gate would deny, the returned source is
"scope" (and in enforce mode the returned result is the scope gate's
verdict itself). -/
theorem C2_pipeline_order (input : HookInput) (policy : Policy) (cwd : String)
    (cost : Option Rat) (count : Nat) (hmode : policy.mode ≠ .off) :
    (checkAllowlist input policy = true →
      validateRun input policy cwd cost count =
        ⟨⟨true, none, none, none, some .allowlist⟩, count, [], false⟩)
  ∧ (∀ rs rb : ValidationResult, checkAllowlist input policy = false →
      checkScope input policy cwd = some rs →
      checkBlocklist input policy = some rb →
      (validateRun input policy cwd cost count).res.source = some .scope)
  ∧ (∀ rs : ValidationResult, checkAllowlist input policy = false →
      checkScope input policy cwd = some rs → policy.mode = .enforce →
      validateRun input policy cwd cost count = ⟨rs, count, [], false⟩) := by
  refine ⟨?_, ?_, ?_⟩
  · intro hA
    simp [validateRun, hmode, hA]
  · intro rs rb hA hS _hB
    have hsrc := (checkScope_source input policy cwd rs hS).2.2
    simp only [validateRun, hmode, if_neg, hA, hS]
    simp [hmode, hsrc]
    split <;> simp [hsrc]
  · intro rs hA hS hm
    simp [validateRun, hm, hA, hS]

def c2Policy : Policy :=
  { defaultPolicy with
    scope := ⟨["\x7bcwd\x7d"], ["/etc"], false⟩ }

def c2Input : HookInput := ⟨"Read", [("file_path", "/etc/id_rsa")], none, none⟩

theorem C2_pipeline_order_witness :
    validateRun (bashInput "ls -la")
        { c2Policy with allowlist := ⟨["ls -la"], [], []⟩ } "/home/u" none 0 =
      ⟨⟨true, none, none, none, some .allowlist⟩, 0, [], false⟩
  ∧ (validateRun c2Input c2Policy "/home/u" none 0).res.source = some .scope
  ∧ validateRun c2Input c2Policy "/home/u" none 0 =
      ⟨⟨false, some "Path in denied scope: /etc", some .high, some "/etc", some .scope⟩,
        0, [], false⟩ := by
  refine ⟨?_, ?_, ?_⟩
  · exact (C2_pipeline_order (bashInput "ls -la")
      { c2Policy with allowlist := ⟨["ls -la"], [], []⟩ } "/home/u" none 0
      (by decide)).1 (by decide)
  · exact (C2_pipeline_order c2Input c2Policy "/home/u" none 0 (by decide)).2.1
      ⟨false, some "Path in denied scope: /etc", some .high, some "/etc", some .scope⟩
      (blockResult (.mk patKeyFile.pattern patKeyFile.re false patKeyFile.severity patKeyFile.reason))
      (by decide) (by decide) (by decide)
  · exact (C2_pipeline_order c2Input c2Policy "/home/u" none 0 (by decide)).2.2
      ⟨false, some "Path in denied scope: /etc", some .high, some "/etc", some .scope⟩
      (by decide) (by decide) rfl

/-- C3: For every input, when mode = "audit", any deny produced by the
scope, blocklist, or budget step is returned with allowed = true while
preserving the source, severity, reason, and pattern that enforce mode
would have produced; and when mode = "off", validate returns allow
immediately (reason, severity, pattern, and source all null) without
evaluating any gate (the counter is untouched, nothing is written, nothing
is killed). -/
theorem C3_audit_coercion_off (input : HookInput) (policy : Policy) (cwd : String)
    (cost : Option Rat) (count : Nat) :
    ((validateRun input { policy with mode := .audit } cwd cost count).res =
      { (validateRun input { policy with mode := .enforce } cwd cost count).res with
          allowed := true })
  ∧ validateRun input { policy with mode := .off } cwd cost count =
      ⟨⟨true, none, none, none, none⟩, count, [], false⟩ := by
  constructor
  · simp only [validateRun, checkAllowlist_mode, checkScope_mode, checkBlocklist_mode,
      checkBudget_mode]
    by_cases hA : checkAllowlist input policy
    · simp [hA]
    · simp only [hA, Bool.false_eq_true, if_false]
      cases hS : checkScope input policy cwd with
      | some rs => simp [hS]
      | none =>
        cases hB : checkBlocklist input policy with
        | some rb => simp [hB]
        | none =>
          by_cases hE : (checkBudget policy cost count).1.exceeded
          · simp [hE]
          · simp [hE, allowNullResult]
  · rfl

/-- C10: For every input, when mode = "off" and audit.enabled,
`validateAndAudit` still performs side effects even though `validate`
returns allow immediately without evaluating any gate: the per-process
action counter is incremented by its call to `checkBudget`, and one audit
entry with allowed = true is appended to the audit file. -/
theorem C10_off_mode_side_effects (input : HookInput) (policy : Policy)
    (cwd : String) (cost : Option Rat) (count : Nat)
    (hmode : policy.mode = .off) (haudit : policy.audit.enabled = true) :
    validateAndAuditRun input policy cwd cost count =
      ⟨⟨true, none, none, none, none⟩, count + 1,
        [⟨true, none, none, none, none⟩], false⟩ := by
  simp [validateAndAuditRun, validateRun, hmode, haudit, checkBudget_snd,
    allowNullResult]

def c10Policy : Policy := { defaultPolicy with mode := .off }

theorem C10_off_mode_side_effects_witness :
    validateAndAuditRun (bashInput "rm -rf /") c10Policy "/w" none 5 =
      ⟨⟨true, none, none, none, none⟩, 6, [⟨true, none, none, none, none⟩], false⟩ :=
  C10_off_mode_side_effects (bashInput "rm -rf /") c10Policy "/w" none 5 rfl rfl

/-! ## Quote stripping lemmas (C4) -/

/-- One unfolding step of `stripGo` on a cons cell. -/
lemma stripGo_cons (inS inD : Bool) (c : Char) (cs : List Char) :
    stripGo inS inD (c :: cs) =
      if c = '\\' && inD then
        match cs with
        | _ :: cs2 => stripGo inS inD cs2
        | [] => []
      else if c = '\'' && !inD then stripGo (!inS) inD cs
      else if c = '"' && !inS then stripGo inS (!inD) cs
      else if !inS && !inD then c :: stripGo inS inD cs
      else stripGo inS inD cs := by
  conv_lhs => rw [stripGo.eq_def]

lemma stripGo_clean (rest : List Char) :
    ∀ a : List Char, (∀ c ∈ a, c ≠ '\'' ∧ c ≠ '"') →
      stripGo false false (a ++ rest) = a ++ stripGo false false rest := by
  intro a
  induction a with
  | nil => intro _; simp
  | cons c cs ih =>
    intro h
    have h1 : c ≠ '\'' := (h c (by simp)).1
    have h2 : c ≠ '"' := (h c (by simp)).2
    have ihh := ih (fun x hx => h x (by simp [hx]))
    rw [List.cons_append, stripGo_cons]
    simp [h1, h2, ihh]

lemma stripGo_single (rest : List Char) :
    ∀ q : List Char, (∀ c ∈ q, c ≠ '\'') →
      stripGo true false (q ++ rest) = stripGo true false rest := by
  intro q
  induction q with
  | nil => intro _; simp
  | cons c cs ih =>
    intro h
    have h1 : c ≠ '\'' := h c (by simp)
    have ihh := ih (fun x hx => h x (by simp [hx]))
    rw [List.cons_append, stripGo_cons]
    simp [h1, ihh]

lemma stripGo_double (rest : List Char) :
    ∀ q : List Char, (∀ c ∈ q, c ≠ '"' ∧ c ≠ '\\') →
      stripGo false true (q ++ rest) = stripGo false true rest := by
  intro q
  induction q with
  | nil => intro _; simp
  | cons c cs ih =>
    intro h
    have h1 : c ≠ '"' := (h c (by simp)).1
    have h2 : c ≠ '\\' := (h c (by simp)).2
    have ihh := ih (fun x hx => h x (by simp [hx]))
    rw [List.cons_append, stripGo_cons]
    simp [h1, h2, ihh]

lemma stripGo_escape (x : Char) (rest : List Char) :
    stripGo false true ('\\' :: x :: rest) = stripGo false true rest := by
  rw [stripGo_cons]
  simp

lemma stripGo_open_single (t : List Char) :
    stripGo false false ('\'' :: t) = stripGo true false t := by
  rw [stripGo_cons]
  simp

lemma stripGo_close_single (t : List Char) :
    stripGo true false ('\'' :: t) = stripGo false false t := by
  rw [stripGo_cons]
  simp

lemma stripGo_open_double (t : List Char) :
    stripGo false false ('"' :: t) = stripGo false true t := by
  rw [stripGo_cons]
  simp

lemma stripGo_close_double (t : List Char) :
    stripGo false true ('"' :: t) = stripGo false false t := by
  rw [stripGo_cons]
  simp

/-- C4: For every Bash command string, the stripped view used for
command-pattern matching equals the command with the contents of every
balanced single- or double-quoted region removed and the quote delimiters
themselves elided, where a backslash escapes exactly one character inside
double quotes only, single quotes disable escape interpretation, and
unclosed quotes consume to end of string; in particular, under the default
policy in enforce mode, the command `echo "rm -rf /"` is allowed because the
quoted content is stripped before matching (the unstripped command *does*
match a command pattern). The balanced-region behavior is stated for a
prefix `a` outside any quote (no quote characters; backslashes in `a` are
ordinary characters) and arbitrary region contents `q` (excluding only the
closing delimiter, and in double quotes the escape character, which the
third conjunct treats explicitly: an escaped character — even `"` — is
consumed without closing the region). -/
theorem C4_strip_quotes :
    (∀ a q b : String, (∀ c ∈ a.data, c ≠ '\'' ∧ c ≠ '"') →
      (∀ c ∈ q.data, c ≠ '\'') →
      stripQuotedStrings (a ++ "'" ++ q ++ "'" ++ b) = a ++ stripQuotedStrings b)
  ∧ (∀ a q b : String, (∀ c ∈ a.data, c ≠ '\'' ∧ c ≠ '"') →
      (∀ c ∈ q.data, c ≠ '"' ∧ c ≠ '\\') →
      stripQuotedStrings (a ++ "\"" ++ q ++ "\"" ++ b) = a ++ stripQuotedStrings b)
  ∧ (∀ (a q1 q2 b : String) (x : Char), (∀ c ∈ a.data, c ≠ '\'' ∧ c ≠ '"') →
      (∀ c ∈ q1.data, c ≠ '"' ∧ c ≠ '\\') → (∀ c ∈ q2.data, c ≠ '"' ∧ c ≠ '\\') →
      stripQuotedStrings (a ++ "\"" ++ q1 ++ "\\" ++ (⟨[x]⟩ : String) ++ q2 ++ "\"" ++ b) =
        a ++ stripQuotedStrings b)
  ∧ (∀ a q : String, (∀ c ∈ a.data, c ≠ '\'' ∧ c ≠ '"') →
      (∀ c ∈ q.data, c ≠ '\'') →
      stripQuotedStrings (a ++ "'" ++ q) = a)
  ∧ (matchPatterns "echo \"rm -rf /\"" defaultPolicy.blocklist.commands).isSome = true
  ∧ stripQuotedStrings "echo \"rm -rf /\"" = "echo "
  ∧ validateRun (bashInput "echo \"rm -rf /\"") defaultPolicy "/w" none 0 =
      ⟨⟨true, none, none, none, none⟩, 1, [], false⟩ := by
  refine ⟨?_, ?_, ?_, ?_, by decide, by decide, by decide⟩
  · intro a q b ha hq
    apply String.ext
    simp only [stripQuotedStrings, String.data_append,
      show ("'" : String).data = ['\''] from rfl, List.append_assoc,
      List.singleton_append, List.cons_append, List.nil_append]
    rw [stripGo_clean _ _ ha, stripGo_open_single,
      stripGo_single _ _ hq, stripGo_close_single]
  · intro a q b ha hq
    apply String.ext
    simp only [stripQuotedStrings, String.data_append,
      show ("\"" : String).data = ['"'] from rfl, List.append_assoc,
      List.singleton_append, List.cons_append, List.nil_append]
    rw [stripGo_clean _ _ ha, stripGo_open_double,
      stripGo_double _ _ hq, stripGo_close_double]
  · intro a q1 q2 b x ha hq1 hq2
    apply String.ext
    simp only [stripQuotedStrings, String.data_append,
      show ("\"" : String).data = ['"'] from rfl,
      show ("\\" : String).data = ['\\'] from rfl,
      show (⟨[x]⟩ : String).data = [x] from rfl, List.append_assoc,
      List.singleton_append, List.cons_append, List.nil_append]
    rw [stripGo_clean _ _ ha, stripGo_open_double, stripGo_double _ _ hq1,
      stripGo_escape, stripGo_double _ _ hq2, stripGo_close_double]
  · intro a q ha hq
    apply String.ext
    simp only [stripQuotedStrings, String.data_append,
      show ("'" : String).data = ['\''] from rfl, List.append_assoc,
      List.singleton_append, List.cons_append, List.nil_append]
    rw [stripGo_clean _ _ ha, stripGo_open_single]
    have := stripGo_single [] q.data hq
    simpa using this

theorem C4_strip_quotes_witness :
    stripQuotedStrings ("echo " ++ "'" ++ "rm -rf /" ++ "'" ++ "") =
      "echo " ++ stripQuotedStrings ""
  ∧ stripQuotedStrings ("echo " ++ "\"" ++ "rm -rf /" ++ "\"" ++ " x") =
      "echo " ++ stripQuotedStrings " x"
  ∧ stripQuotedStrings ("m " ++ "\"" ++ "a" ++ "\\" ++ (⟨['"']⟩ : String) ++ "b" ++ "\"" ++ "c") =
      "m " ++ stripQuotedStrings "c"
  ∧ stripQuotedStrings ("grep " ++ "'" ++ "foo bar") = "grep " := by
  refine ⟨?_, ?_, ?_, ?_⟩
  · exact (C4_strip_quotes).1 "echo " "rm -rf /" "" (by decide) (by decide)
  · exact (C4_strip_quotes).2.1 "echo " "rm -rf /" " x" (by decide) (by decide)
  · exact (C4_strip_quotes).2.2.1 "m " "a" "b" "c" '"' (by decide) (by decide) (by decide)
  · exact (C4_strip_quotes).2.2.2.1 "grep " "foo bar" (by decide) (by decide)

/-! ## C5: shell segmentation -/

/-- C5 counterexample: the claim says splitting is suppressed only while the
`(...)`/`$(...)` depth is positive, so `"$(a) && b"` — whose substitution is
closed before the `&&` — would split into `["$(a)", "b"]`. The source counts
`$(` twice (once for the `$`-lookahead, once for the `(` itself) but `)`
only once, so the depth never returns to zero and the command stays one
segment. -/
theorem C5_split_counterexample :
    splitShellCommand "$(a) && b" = ["$(a) && b"] ∧
    (["$(a) && b"] : List String) ≠ ["$(a)", "b"] := by decide

/-- C5 (amended): `splitShellCommand` splits on `&&`, `||`, `;`, `|` at top
level, with splitting suppressed inside single or double quotes and while a
parenthesis counter is positive, where `$(` raises the counter by two and
`)` lowers it by one — so splitting stays suppressed for the remainder of
any command containing `$(...)`; each segment is quote-stripped and
independently matched against command patterns; and `echo hi && rm -rf /`
is denied in enforce mode under the default policy — the stripped full
command already matches the forced-deletion pattern at the full-command
stage, and the second split segment `rm -rf /` would also match. -/
theorem C5_split_amended :
    splitShellCommand "echo hi && rm -rf /" = ["echo hi", "rm -rf /"]
  ∧ splitShellCommand "a | b ; c || d" = ["a", "b", "c", "d"]
  ∧ splitShellCommand "echo 'a && b' ; c" = ["echo 'a && b'", "c"]
  ∧ splitShellCommand "echo \"a && b\" ; c" = ["echo \"a && b\"", "c"]
  ∧ splitShellCommand "(a && b) ; c" = ["(a && b)", "c"]
  ∧ splitShellCommand "$(a) && b" = ["$(a) && b"]
  ∧ (validateRun (bashInput "echo hi && rm -rf /") defaultPolicy "/w" none 0).res =
      blockResult patRmForce
  ∧ (matchPatterns (stripQuotedStrings "echo hi && rm -rf /")
      defaultPolicy.blocklist.commands).isSome = true
  ∧ (matchPatterns (stripQuotedStrings "rm -rf /")
      defaultPolicy.blocklist.commands).isSome = true := by decide

/-! ## C6: command substitutions -/

/-- C6: the claim (with the spec) says the contents of every balanced
`$(...)` region and every backtick region are extracted and matched without
quote stripping. The extraction loop runs only while `i < length - 1`, so a
substitution whose closing `)` is the final character of the command is
never extracted: `extractSubcommands "$(a)" = []`, and a blocklisted
command hidden (quoted) inside such a trailing substitution sails through
`checkBlocklist`, while the same command with one trailing character is
extracted and denied. -/
theorem C6_substitutions :
    extractSubcommands "$(a)" = []
  ∧ extractSubcommands "echo $(rm -rf /) now" = ["rm -rf /"]
  ∧ extractSubcommands "echo `rm -rf /` now" = ["rm -rf /"]
  ∧ extractSubcommands "a $(b $(c)) d" = ["b $(c)"]
  ∧ checkBlocklist (bashInput "echo $(mysql -e \"DROP TABLE t\") now") defaultPolicy =
      some (blockResult patDrop)
  ∧ checkBlocklist (bashInput "true && x=$(mysql -e \"DROP TABLE t\")") defaultPolicy =
      none := by decide

/-! ## C7: scope gate -/

/-- Modelled from the spec's words: the expansion of an allowed path with
*every* literal `{cwd}` substituted by the working directory (the source
uses JavaScript `replace`, which only substitutes the first occurrence). -/
def expandCwdAll (rep : List Char) : List Char → List Char
  | b1 :: 'c' :: 'w' :: 'd' :: b2 :: cs =>
    if b1 = Char.ofNat 123 ∧ b2 = Char.ofNat 125 then rep ++ expandCwdAll rep cs
    else b1 :: expandCwdAll rep ('c' :: 'w' :: 'd' :: b2 :: cs)
  | c :: cs => c :: expandCwdAll rep cs
  | [] => []

def expandCwdAllStr (p cwd : String) : String := ⟨expandCwdAll cwd.data p.data⟩

def c7CexPolicy : Policy :=
  { defaultPolicy with scope := ⟨["\x7bcwd\x7d\x7bcwd\x7d"], [], false⟩ }

def c7CexInput : HookInput := ⟨"Read", [("file_path", "/c/c/x")], none, none⟩

/-- C7 counterexample: with `allowed_paths = ["{cwd}{cwd}"]` and working
directory `/c`, the claim's expansion (every `{cwd}` substituted) is
`/c/c`, of which the resolved path `/c/c/x` is an extension — so the claim
says the request passes the scope gate. The source substitutes only the
first occurrence, expands to `/c{cwd}`, and denies with source scope. -/
theorem C7_scope_counterexample :
    expandCwdAllStr "\x7bcwd\x7d\x7bcwd\x7d" "/c" = "/c/c"
  ∧ jsStartsWith (pathResolve "/c" "/c/c/x") (expandCwdAllStr "\x7bcwd\x7d\x7bcwd\x7d" "/c") = true
  ∧ jsReplaceFirst "\x7bcwd\x7d\x7bcwd\x7d" "\x7bcwd\x7d" "/c" = "/c\x7bcwd\x7d"
  ∧ checkScope c7CexInput c7CexPolicy "/c" =
      some ⟨false, some "Path outside allowed scope: /c/c/x", some .high,
        some "/c", some .scope⟩ := by decide

/-- C7 (amended): For every request whose tool input carries a `file_path`,
the path resolved against the working directory is denied with source
"scope" and severity "high" if it begins with any entry of
`scope.denied_paths`; otherwise, when `allow_outside_cwd` is false, it is
denied with source "scope" and severity "high" unless it begins with some
expansion of `scope.allowed_paths` in which the *first* occurrence of the
literal `{cwd}` is substituted with the working directory; requests
carrying no `file_path` skip the scope gate. -/
theorem C7_scope_amended (input : HookInput) (policy : Policy) (cwd : String) :
    (getStr input.tool_input "file_path" = "" → checkScope input policy cwd = none)
  ∧ (getStr input.tool_input "file_path" ≠ "" →
      (∃ d ∈ policy.scope.denied_paths,
        jsStartsWith (pathResolve cwd (getStr input.tool_input "file_path")) d = true) →
      ∃ r, checkScope input policy cwd = some r ∧ r.allowed = false ∧
        r.severity = some .high ∧ r.source = some .scope)
  ∧ (getStr input.tool_input "file_path" ≠ "" →
      (∀ d ∈ policy.scope.denied_paths,
        jsStartsWith (pathResolve cwd (getStr input.tool_input "file_path")) d = false) →
      policy.scope.allow_outside_cwd = false →
      (∀ p ∈ policy.scope.allowed_paths,
        jsStartsWith (pathResolve cwd (getStr input.tool_input "file_path"))
          (jsReplaceFirst p "\x7bcwd\x7d" cwd) = false) →
      checkScope input policy cwd =
        some ⟨false, some ("Path outside allowed scope: " ++
            pathResolve cwd (getStr input.tool_input "file_path")),
          some .high, some cwd, some .scope⟩)
  ∧ (getStr input.tool_input "file_path" ≠ "" →
      (∀ d ∈ policy.scope.denied_paths,
        jsStartsWith (pathResolve cwd (getStr input.tool_input "file_path")) d = false) →
      (policy.scope.allow_outside_cwd = true ∨
        ∃ p ∈ policy.scope.allowed_paths,
          jsStartsWith (pathResolve cwd (getStr input.tool_input "file_path"))
            (jsReplaceFirst p "\x7bcwd\x7d" cwd) = true) →
      checkScope input policy cwd = none) := by
  refine ⟨?_, ?_, ?_, ?_⟩
  · intro hfp
    unfold checkScope
    rw [if_pos hfp]
  · intro hfp hd
    have hsome : (policy.scope.denied_paths.find?
        (fun d => jsStartsWith (pathResolve cwd (getStr input.tool_input "file_path")) d)).isSome := by
      rw [List.find?_isSome]
      exact hd
    rcases Option.isSome_iff_exists.1 hsome with ⟨d, hdeq⟩
    refine ⟨⟨false, some ("Path in denied scope: " ++ d), some .high, some d, some .scope⟩,
      ?_, rfl, rfl, rfl⟩
    unfold checkScope
    rw [if_neg hfp, hdeq]
  · intro hfp hd ho hp
    have hnone : policy.scope.denied_paths.find?
        (fun d => jsStartsWith (pathResolve cwd (getStr input.tool_input "file_path")) d) = none := by
      rw [List.find?_eq_none]
      intro d hdmem
      simp [hd d hdmem]
    unfold checkScope
    rw [if_neg hfp, hnone, ho]
    have hany : (policy.scope.allowed_paths.map (fun p => jsReplaceFirst p "\x7bcwd\x7d" cwd)).any
        (fun a => jsStartsWith (pathResolve cwd (getStr input.tool_input "file_path")) a) = false := by
      rw [List.any_map, List.any_eq_false]
      intro p hpmem
      simp [Function.comp, hp p hpmem]
    simp [hany]
  · intro hfp hd hor
    have hnone : policy.scope.denied_paths.find?
        (fun d => jsStartsWith (pathResolve cwd (getStr input.tool_input "file_path")) d) = none := by
      rw [List.find?_eq_none]
      intro d hdmem
      simp [hd d hdmem]
    unfold checkScope
    rw [if_neg hfp, hnone]
    rcases hor with ho | ⟨p, hpmem, hsw⟩
    · simp [ho]
    · have hany : (policy.scope.allowed_paths.map (fun p => jsReplaceFirst p "\x7bcwd\x7d" cwd)).any
          (fun a => jsStartsWith (pathResolve cwd (getStr input.tool_input "file_path")) a) = true := by
        rw [List.any_map, List.any_eq_true]
        exact ⟨p, hpmem, by simpa [Function.comp] using hsw⟩
      by_cases ho : policy.scope.allow_outside_cwd
      · simp [ho]
      · simp [ho, hany]

def c7WitnessPolicy : Policy :=
  { defaultPolicy with scope := ⟨["\x7bcwd\x7d"], [], false⟩ }

def c7WitnessInput : HookInput := ⟨"Read", [("file_path", "/etc/passwd")], none, none⟩

theorem C7_scope_amended_witness :
    checkScope c7WitnessInput c7WitnessPolicy "/home/u/proj" =
      some ⟨false, some ("Path outside allowed scope: " ++
          pathResolve "/home/u/proj" (getStr c7WitnessInput.tool_input "file_path")),
        some .high, some "/home/u/proj", some .scope⟩ :=
  (C7_scope_amended c7WitnessInput c7WitnessPolicy "/home/u/proj").2.2.1
    (by decide) (by decide) rfl (by decide)

/-! ## C8 and C9: budget counting and audit writes through `validateAndAudit` -/

def c8Policy : Policy :=
  { defaultPolicy with
    budget := ⟨true, 2, none, "costs.json", .deny⟩
    audit := { defaultPolicy.audit with enabled := false }
    kill_switch := { defaultPolicy.kill_switch with enabled := false } }

def c8Inputs : List HookInput :=
  [bashInput "echo test", bashInput "echo test", bashInput "echo test"]

/-- C8: evaluation of the code at the claimed scenario. `checkBudget`
increments on every call regardless of `budget.enabled` (see
`checkBudget_snd`), but `validateAndAudit` calls it twice per request — once
inside `validate`'s budget gate and once for the audit snapshot — so with
`max_actions_per_session = 2` three identical safe requests produce allow,
deny, deny: the counter is already 2 after the first request, and the
second request's gate call raises it to 3 > 2. -/
theorem C8_budget_sequence :
    ((processAll c8Policy "/w" none 0 c8Inputs).1.map
        (fun r => (r.allowed, r.source)) =
      [(true, none), (false, some .budget), (false, some .budget)])
  ∧ (validateAndAuditRun (bashInput "echo test") c8Policy "/w" none 0).count = 2
  ∧ ((processAll c8Policy "/w" none 0 c8Inputs).1.get? 1 =
      some ⟨false, some "Action limit exceeded: 3/2", some .high, none,
        some .budget⟩) := by decide

def c9Policy : Policy :=
  { c8Policy with audit := { defaultPolicy.audit with enabled := true } }

/-- C9: evaluation of the code at the claimed scenario. A request denied by
the budget gate in enforce mode is audited twice: once by the write inside
`validate`'s budget branch and once by `validateAndAudit`'s unconditional
write; an allowed request is audited once. -/
theorem C9_budget_double_audit :
    (validateAndAuditRun (bashInput "ls") c9Policy "/w" none 0).writes.length = 1
  ∧ (validateAndAuditRun (bashInput "echo test") c9Policy "/w" none 2).writes =
      [⟨false, some "Action limit exceeded: 3/2", some .high, none, some .budget⟩,
       ⟨false, some "Action limit exceeded: 3/2", some .high, none, some .budget⟩] := by
  decide

end Guardian
